import Mathlib

/-!
Verification development for `fetch.py` of the `kongens-nytaarstaler`
repository: a one-shot pipeline that locates the latest New Year speech link
in the first accordion of an index page, fetches the speech page, extracts
title and body text, and archives it as `taler/<year>.md` once.

The Python code is shallowly embedded: parsed HTML pages become explicit
structures, the two regexes become executable character-list matchers, and
the orchestrator (`main` plus the `__main__` exception handler) becomes a
pure function over an explicit world state.
-/

/-! ## Character-level helpers (string primitives used by the Python code) -/

/-- `listStarts pat l` : `l` begins with `pat` (models `str.startswith` and
the CSS attribute selector `[href^="/"]`). The pattern is the first arg. -/
def listStarts : List Char → List Char → Bool
  | [], _ => true
  | _ :: _, [] => false
  | p :: ps, c :: cs => p == c && listStarts ps cs

/-- `strStarts s pat` : the string `s` begins with `pat`. -/
def strStarts (s pat : String) : Bool := listStarts pat.data s.data

/-- `hasSub sub l` : `sub` occurs contiguously inside `l` (models the Python
`in` substring test). -/
def hasSub (sub : List Char) : List Char → Bool
  | [] => listStarts sub []
  | c :: t => listStarts sub (c :: t) || hasSub sub t

/-- `stripLit pat l` : remove the literal pattern `pat` from the front of `l`,
returning the remainder, or `none` when `l` does not begin with `pat`. -/
def stripLit : List Char → List Char → Option (List Char)
  | [], s => some s
  | _ :: _, [] => none
  | p :: ps, c :: cs => if p = c then stripLit ps cs else none

/-- Leading/trailing-whitespace removal on the character list (models Python
`str.strip()` on the whitespace actually occurring in this domain). -/
def stripChars (l : List Char) : List Char :=
  ((l.dropWhile Char.isWhitespace).reverse.dropWhile Char.isWhitespace).reverse

/-- `pyStrip s` models `s.strip()`. -/
def pyStrip (s : String) : String := ⟨stripChars s.data⟩

/-- Lower-casing of one character, modelling Python `str.lower()` on the
alphabet this site uses (ASCII plus the Danish letters Æ, Ø, Å). -/
def lowerDa (c : Char) : Char :=
  if c = 'Æ' then 'æ' else if c = 'Ø' then 'ø' else if c = 'Å' then 'å'
  else c.toLower

/-- `lowerStr s` models `s.lower()`. -/
def lowerStr (s : String) : String := ⟨s.data.map lowerDa⟩

/-- `joinWith sep parts` models `sep.join(parts)`. -/
def joinWith (sep : String) : List String → String
  | [] => ""
  | [x] => x
  | x :: y :: rest => x ++ sep ++ joinWith sep (y :: rest)

/-! ## The `YEAR_RE` regex: `\b(19|20)\d{2}\b` via `re.search` -/

/-- ASCII decimal digit (the `\d` class as it applies to this site's text). -/
def isDigitChar (c : Char) : Bool := decide (48 ≤ c.toNat ∧ c.toNat ≤ 57)

/-- Numeric value of a digit character. -/
def digitVal (c : Char) : Nat := c.toNat - 48

/-- Word character for `\b` (ASCII alphanumerics, underscore, and the Danish
letters, matching Python's word class on this site's alphabet). -/
def isWordChar (c : Char) : Bool :=
  c.isAlphanum || c = '_' || c = 'æ' || c = 'ø' || c = 'å' ||
    c = 'Æ' || c = 'Ø' || c = 'Å'

/-- A `\b` boundary holds next to the digit run when the neighbouring
character (if any) is not a word character. -/
def boundaryOk : Option Char → Bool
  | none => true
  | some c => !(isWordChar c)

/-- First two digits must read `19` or `20` (the `(19|20)` alternation). -/
def isYearPair (c1 c2 : Char) : Bool :=
  (c1 == '1' && c2 == '9') || (c1 == '2' && c2 == '0')

/-- Attempt to match `\b(19|20)\d{2}\b` at the current position; `prev` is the
character immediately before that position, if any. -/
def tryYear (prev : Option Char) : List Char → Option Nat
  | c1 :: c2 :: c3 :: c4 :: rest =>
      if boundaryOk prev && isYearPair c1 c2 && isDigitChar c3 && isDigitChar c4
          && boundaryOk rest.head? then
        some (1000 * digitVal c1 + 100 * digitVal c2 + 10 * digitVal c3 + digitVal c4)
      else none
  | _ => none

/-- Scan left to right for the first match (the semantics of `re.search`). -/
def yearSearchAux (prev : Option Char) : List Char → Option Nat
  | [] => none
  | c :: rest =>
      match tryYear prev (c :: rest) with
      | some y => some y
      | none => yearSearchAux (some c) rest

/-- `yearSearch s` models `YEAR_RE.search(s)` followed by `int(m.group(0))`. -/
def yearSearch (s : String) : Option Nat := yearSearchAux none s.data

/-! ## The `SPEECH_HREF_RE` regex: `^/nyheder/laes-.*-nytaarstale-\d{4}/?$` -/

/-- The `/?$` tail: end of string, an optional `/`, each optionally followed
by a final newline (Python `$` also matches just before a trailing newline). -/
def endSlashOk : List Char → Bool
  | [] => true
  | ['/'] => true
  | ['\n'] => true
  | ['/', '\n'] => true
  | _ => false

/-- Match `-nytaarstale-\d{4}/?$` at the current position. -/
def speechTailMatch (l : List Char) : Bool :=
  match stripLit ("-nytaarstale-".data) l with
  | some (d1 :: d2 :: d3 :: d4 :: rest) =>
      isDigitChar d1 && isDigitChar d2 && isDigitChar d3 && isDigitChar d4 &&
        endSlashOk rest
  | _ => false

/-- The `.*` portion: consume non-newline characters until the tail matches. -/
def dotStarScan : List Char → Bool
  | [] => false
  | c :: rest => speechTailMatch (c :: rest) || ((c != '\n') && dotStarScan rest)

/-- `speechHrefMatch s` models `SPEECH_HREF_RE.match(s)` (anchored at the
start of the string). -/
def speechHrefMatch (s : String) : Bool :=
  match stripLit ("/nyheder/laes-".data) s.data with
  | some r => dotStarScan r
  | none => false

/-! ## Data model of the parsed index page -/

/-- The fixed base origin `BASE_URL` of `fetch.py`. -/
def BASE_URL : String := "https://www.kongehuset.dk"

/-- An `<a>` element inside an accordion item's content: its `href`
attribute, its rendered text (`get_text(" ", strip=True)`), and its `title`
attribute (`""` when absent, matching `a.get("title") or ""`). -/
structure Link where
  href : String
  text : String
  title : String

/-- One `.accordion__container__item`: the rendered text of its
`...__title__toggle` node when present, and its content links in document
order. -/
structure AccordionItem where
  titleToggle : Option String
  links : List Link

/-- One `div.accordion` block. -/
structure Accordion where
  items : List AccordionItem

/-- The parsed index page: its `div.accordion` blocks in document order. -/
structure IndexDoc where
  accordions : List Accordion

/-! ## `get_first_accordion` and `choose_best_link` -/

/-- `get_first_accordion`: the first `div.accordion` in document order, or a
`RuntimeError`. -/
def get_first_accordion (doc : IndexDoc) : Except String Accordion :=
  match doc.accordions.head? with
  | none => .error "Fandt ingen .accordion på siden."
  | some a => .ok a

/-- The first loop of `choose_best_link`: the first link whose stripped href
matches `SPEECH_HREF_RE`. -/
def firstPatternLink : List Link → Option String
  | [] => none
  | a :: rest =>
      if speechHrefMatch (pyStrip a.href) then some (pyStrip a.href)
      else firstPatternLink rest

/-- Whether a link's lower-cased text or title contains `'nytårstale'`
(the test of the second loop of `choose_best_link`). -/
def keywordHit (a : Link) : Bool :=
  hasSub "nytårstale".data (lowerStr a.text).data ||
    hasSub "nytårstale".data (lowerStr a.title).data

/-- The second loop of `choose_best_link`: the first link whose text or title
contains the keyword. -/
def firstKeywordLink : List Link → Option String
  | [] => none
  | a :: rest =>
      if keywordHit a then some (pyStrip a.href) else firstKeywordLink rest

/-- `choose_best_link`: restrict to internal links (`a[href^="/"]`), then try
the known-URL pattern, the keyword heuristic, and finally the first internal
link. -/
def choose_best_link (item : AccordionItem) : Option String :=
  match item.links.filter (fun a => strStarts a.href "/") with
  | [] => none
  | l0 :: ls =>
      match firstPatternLink (l0 :: ls) with
      | some h => some h
      | none =>
          match firstKeywordLink (l0 :: ls) with
          | some h => some h
          | none => some (pyStrip l0.href)

/-! ## `find_latest_from_first_accordion` -/

/-- The loop body of `find_latest_from_first_accordion`: extract a year from
the item's toggle-title text, pick a link, and keep the pair when the link is
non-empty and site-relative. -/
def itemCandidate (item : AccordionItem) : Option (Nat × String) :=
  match yearSearch (item.titleToggle.getD "") with
  | none => none
  | some year =>
      match choose_best_link item with
      | none => none
      | some href =>
          if href = "" || !(strStarts href "/") then none
          else some (year, BASE_URL ++ href)

/-- The candidate list accumulated over the items of the first accordion
(empty when no accordion exists). -/
def candidatesOf (doc : IndexDoc) : List (Nat × String) :=
  match get_first_accordion doc with
  | .error _ => []
  | .ok root => root.items.filterMap itemCandidate

/-- The sort relation of `candidates.sort(key=lambda x: x[0], reverse=True)`:
descending by year; Python's sort (and `List.insertionSort`) is stable. -/
def yrGe (a b : Nat × String) : Prop := b.1 ≤ a.1

instance : DecidableRel yrGe := fun a b => Nat.decLe b.1 a.1

/-- `find_latest_from_first_accordion`: collect candidates from the first
accordion, stably sort descending by year, and return the head. -/
def find_latest_from_first_accordion (doc : IndexDoc) : Except String (Nat × String) :=
  match get_first_accordion doc with
  | .error e => .error e
  | .ok root =>
      match root.items.filterMap itemCandidate with
      | [] => .error "Fandt ingen kandidater i første accordion (Kongen)."
      | c :: cs => .ok ((List.insertionSort yrGe (c :: cs)).headD c)

/-! ## `extract_title_and_text` -/

/-- The parsed speech page: the rendered text of the first `<h1>` (if any),
the paragraph texts under `<main>` (or `none` when the page has no `<main>`),
and the paragraph texts of the whole document (used in that case). -/
structure SpeechPage where
  h1 : Option String
  mainParas : Option (List String)
  docParas : List String

/-- The body text computed by `extract_title_and_text`: each paragraph's
text stripped, empty ones discarded, the rest joined by blank lines. -/
def bodyText (page : SpeechPage) : String :=
  joinWith "\n\n"
    (((page.mainParas.getD page.docParas).map pyStrip).filter (fun p => p != ""))

/-- `extract_title_and_text`: title from the first `<h1>` with a fixed
fallback, body from the paragraphs, and a `RuntimeError` when the body is
shorter than 500 characters. -/
def extract_title_and_text (page : SpeechPage) : Except String (String × String) :=
  if (bodyText page).length < 500 then
    .error "Udtræk gav meget lidt tekst (markup kan have ændret sig)."
  else .ok (page.h1.getD "Kongens nytårstale", bodyText page)

/-! ## `write_markdown` and the orchestrator -/

/-- Lookup in the flat output directory, modelled as an association list from
path to file content. -/
def lookupFs (fs : List (String × String)) (p : String) : Option String :=
  match fs with
  | [] => none
  | kv :: rest => if kv.1 = p then some kv.2 else lookupFs rest p

/-- `write_markdown`: return the existing path untouched when
`taler/<year>.md` exists, else write the fixed markdown template. Returns the
path together with the updated directory. -/
def write_markdown (fs : List (String × String)) (year : Nat)
    (title source_url text today : String) : String × List (String × String) :=
  match lookupFs fs ("taler/" ++ toString year ++ ".md") with
  | some _ => ("taler/" ++ toString year ++ ".md", fs)
  | none =>
      ("taler/" ++ toString year ++ ".md",
        ("taler/" ++ toString year ++ ".md",
          "# " ++ title ++ "\n\nKilde: " ++ source_url ++ "\nHentet: " ++ today ++
            "\n\n---\n\n" ++ text ++ "\n") :: fs)

/-- The world a run observes: the fetched-and-parsed index page (or a network
error), the speech pages by URL (or a network error), the output directory,
and today's date string. -/
structure World where
  index : Except String IndexDoc
  speech : String → Except String SpeechPage
  fs : List (String × String)
  today : String

/-- Observable outcome of one run: process exit code, resulting output
directory, stdout lines, stderr lines, and the speech-page URLs fetched. -/
structure RunResult where
  exitCode : Nat
  fs : List (String × String)
  out : List String
  err : List String
  speechFetches : List String

/-- `main` together with the `__main__` exception handler: network failures
print `HTTP ERROR: ...`, `RuntimeError`s print `ERROR: ...`, both exit 1;
an already-archived year short-circuits with a notice before the speech
fetch; otherwise the speech page is fetched, extracted and written. -/
def runMain (w : World) : RunResult :=
  match w.index with
  | .error e => ⟨1, w.fs, [], ["HTTP ERROR: " ++ e], []⟩
  | .ok doc =>
      match find_latest_from_first_accordion doc with
      | .error e => ⟨1, w.fs, [], ["ERROR: " ++ e], []⟩
      | .ok (year, speech_url) =>
          match lookupFs w.fs ("taler/" ++ toString year ++ ".md") with
          | some _ =>
              ⟨0, w.fs,
                ["OK: taler/" ++ toString year ++ ".md findes allerede. Ingen ændringer."],
                [], []⟩
          | none =>
              match w.speech speech_url with
              | .error e => ⟨1, w.fs, [], ["HTTP ERROR: " ++ e], [speech_url]⟩
              | .ok page =>
                  match extract_title_and_text page with
                  | .error e => ⟨1, w.fs, [], ["ERROR: " ++ e], [speech_url]⟩
                  | .ok (title, text) =>
                      ⟨0, (write_markdown w.fs year title speech_url text w.today).2,
                        ["Skrev: " ++ (write_markdown w.fs year title speech_url text w.today).1,
                          "URL: " ++ speech_url],
                        [], [speech_url]⟩

/-! ## Concrete fixtures -/

/-- Accordion item for the 2022 speech. -/
def item2022 : AccordionItem :=
  ⟨some "H.M. Kongens nytårstale 2022",
    [⟨"/nyheder/laes-kongens-nytaarstale-2022/", "Læs talen", ""⟩]⟩

/-- Accordion item for the 2023 speech. -/
def item2023 : AccordionItem :=
  ⟨some "H.M. Kongens nytårstale 2023",
    [⟨"/nyheder/laes-kongens-nytaarstale-2023/", "Læs talen", ""⟩]⟩

/-- Accordion item for the 2021 speech. -/
def item2021 : AccordionItem :=
  ⟨some "H.M. Kongens nytårstale 2021",
    [⟨"/nyheder/laes-kongens-nytaarstale-2021/", "Læs talen", ""⟩]⟩

/-- An item of the second (queen's) accordion. -/
def itemQueen : AccordionItem :=
  ⟨some "H.M. Dronningens nytårstale 2016",
    [⟨"/nyheder/laes-dronningens-nytaarstale-2016/", "Læs talen", ""⟩]⟩

/-- Index page with the king's accordion (years 2022, 2023, 2021 in that
order) followed by a second accordion. -/
def docKing : IndexDoc := ⟨[⟨[item2022, item2023, item2021]⟩, ⟨[itemQueen]⟩]⟩

/-- The absolute URL of the 2023 candidate on `docKing`. -/
def url2023 : String := "https://www.kongehuset.dk/nyheder/laes-kongens-nytaarstale-2023/"

/-- An item whose year occurs only in its link's href, not in the toggle
title text (nor in a title attribute). -/
def itemHrefYearOnly : AccordionItem :=
  ⟨some "H.M. Kongens nytårstale",
    [⟨"/nyheder/laes-kongens-nytaarstale-2024/", "Læs talen", ""⟩]⟩

/-- Index page whose only item is `itemHrefYearOnly`. -/
def docHrefYearOnly : IndexDoc := ⟨[⟨[itemHrefYearOnly]⟩]⟩

/-- An item whose only link carries an absolute URL. -/
def itemAbsoluteOnly : AccordionItem :=
  ⟨some "H.M. Kongens nytårstale 2024",
    [⟨"https://www.kongehuset.dk/nyheder/laes-kongens-nytaarstale-2024/",
      "H.M. Kongens nytårstale 2024", ""⟩]⟩

/-- Index page whose only item is `itemAbsoluteOnly`. -/
def docAbsoluteOnly : IndexDoc := ⟨[⟨[itemAbsoluteOnly]⟩]⟩

/-- An item whose only link is relative and matches neither the URL pattern
nor the keyword (the spec's `/nyheder/foo-nytaarstale-2025/` example). -/
def itemFoo2025 : AccordionItem :=
  ⟨some "H.M. Kongens nytårstale 2025",
    [⟨"/nyheder/foo-nytaarstale-2025/", "Se talen", ""⟩]⟩

/-- An item where only the keyword tier of the link heuristic fires, and on
the second of its two internal links. -/
def itemKeyword : AccordionItem :=
  ⟨some "H.M. Kongens nytårstale 2025",
    [⟨"/om-kongehuset/", "Om Kongehuset", ""⟩,
     ⟨"/nyheder/tale/", "H.M. Kongens nytårstale 2025", ""⟩]⟩

/-- A speech page whose paragraphs yield fewer than 500 characters. -/
def pageShort : SpeechPage :=
  ⟨some "H.M. Kongens nytårstale 2023", some ["Kort tekst.", "  ", "Mere."], []⟩

/-- A single 600-character paragraph. -/
def longPara : String := ⟨List.replicate 600 'a'⟩

/-- A speech page whose body text exceeds 500 characters. -/
def pageLong : SpeechPage :=
  ⟨some "H.M. Kongens nytårstale 2023", some [longPara], []⟩

/-- A world whose index fetch fails with a network error. -/
def worldNetFail : World :=
  ⟨.error "timeout", fun _ => .error "timeout", [], "2026-01-01"⟩

/-- A world in which the resolved year 2023 is already archived. -/
def worldArchived : World :=
  ⟨.ok docKing, fun _ => .error "unused", [("taler/2023.md", "gammelt indhold")], "2026-01-01"⟩

/-- A world in which the pipeline reaches extraction and the fetched speech
page's body is too short. -/
def worldShortBody : World :=
  ⟨.ok docKing, fun _ => .ok pageShort, [], "2026-01-01"⟩

/-- A world in which the pipeline reaches extraction and the fetched speech
page's body is long enough. -/
def worldLongBody : World :=
  ⟨.ok docKing, fun _ => .ok pageLong, [], "2026-01-01"⟩

/-! ## Spec-side selection: first candidate with the maximum year -/

/-- Selection as the specification words it: the candidate with the maximum
year, ties broken in favour of the earlier element. `specGo c cs` is that
selection over `c :: cs`. -/
def specGo (c : Nat × String) : List (Nat × String) → Nat × String
  | [] => c
  | d :: ds => if (specGo d ds).1 ≤ c.1 then c else specGo d ds

/-- A stable descending insertion sort never empties a non-empty list. -/
theorem insertionSort_yrGe_ne_nil (c : Nat × String) (cs : List (Nat × String)) :
    List.insertionSort yrGe (c :: cs) ≠ [] := by
  intro h
  have hlen := (List.perm_insertionSort yrGe (c :: cs)).length_eq
  rw [h] at hlen
  simp at hlen

/-- The head of the stable descending sort is exactly the spec-side
selection. -/
theorem insertionSort_headD_eq_specGo (cs : List (Nat × String)) :
    ∀ c : Nat × String, (List.insertionSort yrGe (c :: cs)).headD c = specGo c cs := by
  induction cs with
  | nil => intro c; rfl
  | cons d ds ih =>
      intro c
      have hstep : List.insertionSort yrGe (c :: d :: ds)
          = List.orderedInsert yrGe c (List.insertionSort yrGe (d :: ds)) := rfl
      rw [hstep]
      cases hs : List.insertionSort yrGe (d :: ds) with
      | nil => exact absurd hs (insertionSort_yrGe_ne_nil d ds)
      | cons m rest =>
          have hm : m = specGo d ds := by
            have h2 := ih d
            rw [hs] at h2
            simpa using h2
          by_cases hcm : yrGe c m
          · rw [List.orderedInsert, if_pos hcm]
            have : (specGo d ds).1 ≤ c.1 := hm ▸ hcm
            simp [specGo, this]
          · rw [List.orderedInsert, if_neg hcm]
            have : ¬ (specGo d ds).1 ≤ c.1 := fun h => hcm (hm ▸ h)
            simp [specGo, this, hm]

/-- The spec-side selection really is the first element attaining the
maximum year: it splits the list into a strict-smaller prefix, itself, and a
suffix, and bounds every year. -/
theorem specGo_first_max (cs : List (Nat × String)) :
    ∀ c : Nat × String, ∃ pre post,
      c :: cs = pre ++ specGo c cs :: post ∧
      (∀ x ∈ pre, x.1 < (specGo c cs).1) ∧
      (∀ x ∈ c :: cs, x.1 ≤ (specGo c cs).1) := by
  induction cs with
  | nil =>
      intro c
      exact ⟨[], [], rfl, by simp, by simp [specGo]⟩
  | cons d ds ih =>
      intro c
      obtain ⟨pre, post, hsplit, hpre, hall⟩ := ih d
      by_cases hle : (specGo d ds).1 ≤ c.1
      · refine ⟨[], d :: ds, by simp [specGo, hle], by simp, ?_⟩
        intro x hx
        simp [specGo, hle]
        rcases List.mem_cons.mp hx with h | h
        · exact le_of_eq (congrArg Prod.fst h)
        · exact le_trans (hall x h) hle
      · refine ⟨c :: pre, post, ?_, ?_, ?_⟩
        · simp [specGo, hle]
          exact hsplit
        · intro x hx
          simp [specGo, hle]
          rcases List.mem_cons.mp hx with h | h
          · rw [h]; omega
          · exact hpre x h
        · intro x hx
          simp [specGo, hle]
          rcases List.mem_cons.mp hx with h | h
          · rw [h]; omega
          · exact hall x h

/-- C1: for every index page on which the locator's candidate list is
non-empty (equivalently, on which the resolver succeeds), the resolver
returns the candidate with the maximum year, and among candidates sharing
that maximum year it returns the one encountered first in item order. -/
theorem C1_resolver_selects_first_max (doc : IndexDoc) (y : Nat) (u : String)
    (h : find_latest_from_first_accordion doc = .ok (y, u)) :
    ∃ pre post, candidatesOf doc = pre ++ (y, u) :: post ∧
      (∀ x ∈ pre, x.1 < y) ∧ (∀ x ∈ candidatesOf doc, x.1 ≤ y) := by
  unfold find_latest_from_first_accordion at h
  unfold candidatesOf
  cases hg : get_first_accordion doc with
  | error e => rw [hg] at h; simp at h
  | ok root =>
      rw [hg] at h
      dsimp only at h ⊢
      cases hc : root.items.filterMap itemCandidate with
      | nil => rw [hc] at h; simp at h
      | cons c cs =>
          rw [hc] at h
          simp only [Except.ok.injEq] at h
          rw [insertionSort_headD_eq_specGo] at h
          obtain ⟨pre, post, hsplit, hpre, hall⟩ := specGo_first_max cs c
          rw [h] at hsplit hpre hall
          refine ⟨pre, post, hsplit, ?_, ?_⟩
          · intro x hx; exact hpre x hx
          · intro x hx; exact hall x hx

/-- A digit character's value is at most 9. -/
theorem digitVal_le_nine (c : Char) (h : isDigitChar c = true) : digitVal c ≤ 9 := by
  simp [isDigitChar] at h
  simp [digitVal]
  omega

/-- Any year matched by the `YEAR_RE` pattern at one position lies in the
range 1900–2099. -/
theorem tryYear_range (prev : Option Char) (l : List Char) (y : Nat)
    (h : tryYear prev l = some y) : 1900 ≤ y ∧ y ≤ 2099 := by
  match l with
  | [] => simp [tryYear] at h
  | [c1] => simp [tryYear] at h
  | [c1, c2] => simp [tryYear] at h
  | [c1, c2, c3] => simp [tryYear] at h
  | c1 :: c2 :: c3 :: c4 :: rest =>
      rw [tryYear] at h
      split at h
      · next hcond =>
          simp only [Option.some.injEq] at h
          simp only [Bool.and_eq_true] at hcond
          obtain ⟨⟨⟨⟨_, hpair⟩, h3⟩, h4⟩, _⟩ := hcond
          have b3 := digitVal_le_nine c3 h3
          have b4 := digitVal_le_nine c4 h4
          simp only [isYearPair, Bool.or_eq_true, Bool.and_eq_true, beq_iff_eq] at hpair
          rcases hpair with ⟨e1, e2⟩ | ⟨e1, e2⟩ <;> subst e1 <;> subst e2
          · have d1 : digitVal '1' = 1 := rfl
            have d2 : digitVal '9' = 9 := rfl
            rw [d1, d2] at h
            omega
          · have d1 : digitVal '2' = 2 := rfl
            have d2 : digitVal '0' = 0 := rfl
            rw [d1, d2] at h
            omega
      · exact absurd h (by simp)

/-- Any year returned by the scan lies in the range 1900–2099. -/
theorem yearSearchAux_range (l : List Char) :
    ∀ (prev : Option Char) (y : Nat),
      yearSearchAux prev l = some y → 1900 ≤ y ∧ y ≤ 2099 := by
  induction l with
  | nil => intro prev y h; simp [yearSearchAux] at h
  | cons c rest ih =>
      intro prev y h
      rw [yearSearchAux] at h
      cases ht : tryYear prev (c :: rest) with
      | some y0 =>
          rw [ht] at h
          simp only [Option.some.injEq] at h
          exact h ▸ tryYear_range prev (c :: rest) y0 ht
      | none =>
          rw [ht] at h
          exact ih (some c) y h

/-- Any year found by `yearSearch` lies in the range 1900–2099. -/
theorem yearSearch_range (s : String) (y : Nat) (h : yearSearch s = some y) :
    1900 ≤ y ∧ y ≤ 2099 :=
  yearSearchAux_range s.data none y h

/-- C1 witness: on `docKing` (years 2022, 2023, 2021 in item order) the
resolver picks 2023, and the first-maximum split holds there. -/
theorem C1_witness :
    find_latest_from_first_accordion docKing = .ok (2023, url2023) ∧
    ∃ pre post, candidatesOf docKing = pre ++ (2023, url2023) :: post ∧
      (∀ x ∈ pre, x.1 < 2023) ∧ (∀ x ∈ candidatesOf docKing, x.1 ≤ 2023) :=
  ⟨rfl, C1_resolver_selects_first_max docKing 2023 url2023 rfl⟩

/-- C2 counterexample: an item whose year occurs only in the link href (the
toggle title has no year, the title attribute is empty) yields no candidate —
the claimed fallback search across title attribute and href does not exist;
`yearSearch` does find 2024 in that href, so the claim would demand a
candidate here. -/
theorem C2_counterexample :
    candidatesOf docHrefYearOnly = [] ∧
    find_latest_from_first_accordion docHrefYearOnly
      = .error "Fandt ingen kandidater i første accordion (Kongen)." ∧
    yearSearch "/nyheder/laes-kongens-nytaarstale-2024/" = some 2024 ∧
    yearSearch "H.M. Kongens nytårstale" = none :=
  ⟨rfl, rfl, rfl, rfl⟩

/-- C2 (amended): the year of every candidate is extracted from the item's
toggle-title text alone — the first `YEAR_RE` match there, hence within
1900–2099 — and never from a title attribute or an href: replacing the
item's links wholesale cannot change the extracted year. -/
theorem C2_year_from_title_only (item : AccordionItem) (y : Nat) (u : String)
    (h : itemCandidate item = some (y, u)) :
    yearSearch (item.titleToggle.getD "") = some y ∧ 1900 ≤ y ∧ y ≤ 2099 ∧
      ∀ (ls : List Link) (y' : Nat) (u' : String),
        itemCandidate ⟨item.titleToggle, ls⟩ = some (y', u') → y' = y := by
  unfold itemCandidate at h
  cases hy : yearSearch (item.titleToggle.getD "") with
  | none => rw [hy] at h; simp at h
  | some y0 =>
      rw [hy] at h
      dsimp only at h
      cases hl : choose_best_link item with
      | none => rw [hl] at h; simp at h
      | some href =>
          rw [hl] at h
          dsimp only at h
          split at h
          · simp at h
          · simp only [Option.some.injEq, Prod.mk.injEq] at h
            obtain ⟨hy0, _⟩ := h
            subst hy0
            refine ⟨rfl, (yearSearch_range _ _ hy).1, (yearSearch_range _ _ hy).2, ?_⟩
            intro ls y' u' h'
            unfold itemCandidate at h'
            dsimp only at h'
            rw [hy] at h'
            dsimp only at h'
            cases hl' : choose_best_link ⟨item.titleToggle, ls⟩ with
            | none => rw [hl'] at h'; simp at h'
            | some href' =>
                rw [hl'] at h'
                dsimp only at h'
                split at h'
                · simp at h'
                · simp only [Option.some.injEq, Prod.mk.injEq] at h'
                  exact h'.1.symm

/-- C2 witness: on `item2023` the amended statement holds with year 2023. -/
theorem C2_witness :
    yearSearch (item2023.titleToggle.getD "") = some 2023 ∧
      1900 ≤ 2023 ∧ 2023 ≤ 2099 ∧
      ∀ (ls : List Link) (y' : Nat) (u' : String),
        itemCandidate ⟨item2023.titleToggle, ls⟩ = some (y', u') → y' = 2023 :=
  C2_year_from_title_only item2023 2023
    "https://www.kongehuset.dk/nyheder/laes-kongens-nytaarstale-2023/" rfl

/-- C3 counterexample: an item whose only link is an absolute URL yields no
candidate (the locator filters to hrefs beginning with `/`), even though its
toggle title parses to year 2024 — refuting the claim that such an item still
yields a candidate with that URL. -/
theorem C3_counterexample :
    choose_best_link itemAbsoluteOnly = none ∧
    candidatesOf docAbsoluteOnly = [] ∧
    yearSearch (itemAbsoluteOnly.titleToggle.getD "") = some 2024 :=
  ⟨rfl, rfl, rfl⟩

/-- Unpacking of a successful `itemCandidate`: the chosen link is
site-relative and the candidate URL is its join onto the base origin. -/
theorem itemCandidate_shape (item : AccordionItem) (y : Nat) (u : String)
    (h : itemCandidate item = some (y, u)) :
    ∃ href, choose_best_link item = some href ∧ strStarts href "/" = true ∧
      u = BASE_URL ++ href := by
  unfold itemCandidate at h
  cases hy : yearSearch (item.titleToggle.getD "") with
  | none => rw [hy] at h; simp at h
  | some y0 =>
      rw [hy] at h
      dsimp only at h
      cases hl : choose_best_link item with
      | none => rw [hl] at h; simp at h
      | some href =>
          rw [hl] at h
          dsimp only at h
          split at h
          · simp at h
          · next hcond =>
              simp only [Option.some.injEq, Prod.mk.injEq] at h
              simp only [Bool.or_eq_true, not_or, Bool.not_eq_true',
                Bool.not_eq_false, decide_eq_true_eq] at hcond
              exact ⟨href, rfl, hcond.2, h.2.symm⟩

/-- C3 (amended): every candidate URL arises by joining a site-relative href
(one beginning with `/`) onto the fixed base origin; absolute links are never
passed through — an item all of whose links are non-relative yields no link
at all. -/
theorem C3_relative_join_only (item : AccordionItem) :
    (∀ y u, itemCandidate item = some (y, u) →
       ∃ href, choose_best_link item = some href ∧ strStarts href "/" = true ∧
         u = BASE_URL ++ href) ∧
    ((∀ l ∈ item.links, strStarts l.href "/" = false) →
       choose_best_link item = none) := by
  constructor
  · intro y u h
    exact itemCandidate_shape item y u h
  · intro hall
    unfold choose_best_link
    have hnil : item.links.filter (fun a => strStarts a.href "/") = [] := by
      rw [List.filter_eq_nil_iff]
      intro a ha
      simp [hall a ha]
    rw [hnil]

/-- C3 witness: the spec's example href `/nyheder/foo-nytaarstale-2025/` is
joined onto the base origin unchanged. -/
theorem C3_witness :
    ∃ href, choose_best_link itemFoo2025 = some href ∧ strStarts href "/" = true ∧
      "https://www.kongehuset.dk/nyheder/foo-nytaarstale-2025/" = BASE_URL ++ href :=
  (C3_relative_join_only itemFoo2025).1 2025
    "https://www.kongehuset.dk/nyheder/foo-nytaarstale-2025/" rfl

/-- C4: when the extracted body text is shorter than 500 characters the
extractor fails with the `RuntimeError` and the (failing) run writes no file;
a body of 500 characters or more is returned together with the title,
without error. -/
theorem C4_short_body_fails (page : SpeechPage) (w : World) (doc : IndexDoc)
    (y : Nat) (u : String)
    (h1 : w.index = .ok doc)
    (h2 : find_latest_from_first_accordion doc = .ok (y, u))
    (h3 : lookupFs w.fs ("taler/" ++ toString y ++ ".md") = none)
    (h4 : w.speech u = .ok page) :
    ((bodyText page).length < 500 →
       extract_title_and_text page
         = .error "Udtræk gav meget lidt tekst (markup kan have ændret sig)." ∧
       (runMain w).fs = w.fs ∧ (runMain w).exitCode = 1) ∧
    (500 ≤ (bodyText page).length →
       extract_title_and_text page
         = .ok (page.h1.getD "Kongens nytårstale", bodyText page)) := by
  constructor
  · intro hshort
    have hex : extract_title_and_text page
        = .error "Udtræk gav meget lidt tekst (markup kan have ændret sig)." := by
      unfold extract_title_and_text
      rw [if_pos hshort]
    refine ⟨hex, ?_, ?_⟩ <;>
      · unfold runMain
        rw [h1]
        dsimp only
        rw [h2]
        dsimp only
        rw [h3]
        dsimp only
        rw [h4]
        dsimp only
        rw [hex]
  · intro hlong
    unfold extract_title_and_text
    rw [if_neg (by omega)]

set_option maxRecDepth 4000 in
/-- C4 witness: a concrete short-bodied page fails and leaves the directory
unchanged; a concrete 600-character page extracts successfully. -/
theorem C4_witness :
    (extract_title_and_text pageShort
       = .error "Udtræk gav meget lidt tekst (markup kan have ændret sig)." ∧
       (runMain worldShortBody).fs = worldShortBody.fs ∧
       (runMain worldShortBody).exitCode = 1) ∧
    extract_title_and_text pageLong
      = .ok (pageLong.h1.getD "Kongens nytårstale", bodyText pageLong) :=
  ⟨(C4_short_body_fails pageShort worldShortBody docKing 2023 url2023
      rfl rfl rfl rfl).1 (by decide),
   (C4_short_body_fails pageLong worldLongBody docKing 2023 url2023
      rfl rfl rfl rfl).2 (by decide)⟩

/-- Looking up the path just written finds the new file. -/
theorem lookupFs_cons_self (fs : List (String × String)) (p c : String) :
    lookupFs ((p, c) :: fs) p = some c := by
  unfold lookupFs
  simp

/-- C5: running `write_markdown` again for the same year is the identity:
it returns the existing path and leaves the directory — hence the existing
file's byte content — unchanged, whatever title, source URL, body or date
the second run supplies. -/
theorem C5_write_idempotent (fs : List (String × String)) (year : Nat)
    (t1 u1 x1 d1 t2 u2 x2 d2 : String) :
    write_markdown (write_markdown fs year t1 u1 x1 d1).2 year t2 u2 x2 d2
      = ((write_markdown fs year t1 u1 x1 d1).1,
         (write_markdown fs year t1 u1 x1 d1).2) := by
  cases h : lookupFs fs ("taler/" ++ toString year ++ ".md") with
  | some c => simp [write_markdown, h]
  | none => simp [write_markdown, h, lookupFs_cons_self]

/-- C6: the locator depends only on the first accordion in document order:
its candidates are exactly those of the first section's items, and replacing
every later section arbitrarily (in particular for pages with two or more
sections) cannot change the result. -/
theorem C6_first_accordion_only (a : Accordion) (rest rest2 : List Accordion) :
    candidatesOf ⟨a :: rest⟩ = a.items.filterMap itemCandidate ∧
    find_latest_from_first_accordion ⟨a :: rest⟩
      = find_latest_from_first_accordion ⟨a :: rest2⟩ :=
  ⟨rfl, rfl⟩

/-- C7: every run exits 0 or 1; a failing run (exit 1) leaves the output
directory untouched — the file write never occurred — and carries a
diagnostic line on the error stream; a run exiting 0 emits no diagnostic and
is a no-op or adds exactly one record at a previously unused path. -/
theorem C7_exit_codes (w : World) :
    ((runMain w).exitCode = 0 ∨ (runMain w).exitCode = 1) ∧
    ((runMain w).exitCode = 1 → (runMain w).fs = w.fs ∧ (runMain w).err ≠ []) ∧
    ((runMain w).exitCode = 0 → (runMain w).err = [] ∧
       ((runMain w).fs = w.fs ∨
         ∃ p c, lookupFs w.fs p = none ∧ (runMain w).fs = (p, c) :: w.fs)) := by
  unfold runMain
  cases hw : w.index with
  | error e => simp
  | ok doc =>
      dsimp only
      cases hf : find_latest_from_first_accordion doc with
      | error e => simp
      | ok yu =>
          obtain ⟨y, u⟩ := yu
          dsimp only
          cases hl : lookupFs w.fs ("taler/" ++ toString y ++ ".md") with
          | some c => simp
          | none =>
              dsimp only
              cases hs : w.speech u with
              | error e => simp
              | ok page =>
                  dsimp only
                  cases he : extract_title_and_text page with
                  | error e => simp
                  | ok tt =>
                      obtain ⟨title, text⟩ := tt
                      dsimp only
                      unfold write_markdown
                      rw [hl]
                      dsimp only
                      refine ⟨Or.inl rfl, ?_, ?_⟩
                      · intro h
                        exact absurd h (by simp)
                      · intro _
                        exact ⟨rfl, Or.inr ⟨_, _, hl, rfl⟩⟩

/-- C7 witness: a failed index fetch exits 1, leaves the directory unchanged
and prints a diagnostic. -/
theorem C7_witness :
    ((runMain worldNetFail).exitCode = 0 ∨ (runMain worldNetFail).exitCode = 1) ∧
    (runMain worldNetFail).fs = worldNetFail.fs ∧
    (runMain worldNetFail).err ≠ [] :=
  ⟨(C7_exit_codes worldNetFail).1, (C7_exit_codes worldNetFail).2.1 rfl⟩

/-- C8: when the resolved year already has an archived record the run
short-circuits before the speech-page fetch: no speech URL is fetched, the
directory is untouched, the exit code is 0 and the no-op notice is the only
output. -/
theorem C8_short_circuit (w : World) (doc : IndexDoc) (y : Nat) (u c : String)
    (h1 : w.index = .ok doc)
    (h2 : find_latest_from_first_accordion doc = .ok (y, u))
    (h3 : lookupFs w.fs ("taler/" ++ toString y ++ ".md") = some c) :
    (runMain w).speechFetches = [] ∧ (runMain w).fs = w.fs ∧
      (runMain w).exitCode = 0 ∧ (runMain w).err = [] ∧
      (runMain w).out
        = ["OK: taler/" ++ toString y ++ ".md findes allerede. Ingen ændringer."] := by
  unfold runMain
  rw [h1]
  dsimp only
  rw [h2]
  dsimp only
  rw [h3]
  exact ⟨rfl, rfl, rfl, rfl, rfl⟩

/-- C8 witness: with `taler/2023.md` already present, the run on `docKing`
is a pure no-op with the notice. -/
theorem C8_witness :
    (runMain worldArchived).speechFetches = [] ∧
    (runMain worldArchived).fs = worldArchived.fs ∧
    (runMain worldArchived).exitCode = 0 ∧
    (runMain worldArchived).err = [] ∧
    (runMain worldArchived).out = ["OK: taler/2023.md findes allerede. Ingen ændringer."] :=
  C8_short_circuit worldArchived docKing 2023 url2023 "gammelt indhold" rfl rfl rfl

/-- The first loop of `choose_best_link` returns exactly the first
pattern-matching link's stripped href. -/
theorem firstPatternLink_eq_find (links : List Link) :
    firstPatternLink links
      = (links.find? (fun a => speechHrefMatch (pyStrip a.href))).map
          (fun a => pyStrip a.href) := by
  induction links with
  | nil => rfl
  | cons a rest ih =>
      cases h : speechHrefMatch (pyStrip a.href) with
      | true =>
          rw [firstPatternLink, if_pos h, List.find?_cons, h]
          rfl
      | false =>
          rw [firstPatternLink, if_neg (by simp [h]), List.find?_cons, h]
          exact ih

/-- The second loop of `choose_best_link` returns exactly the first
keyword-matching link's stripped href. -/
theorem firstKeywordLink_eq_find (links : List Link) :
    firstKeywordLink links
      = (links.find? keywordHit).map (fun a => pyStrip a.href) := by
  induction links with
  | nil => rfl
  | cons a rest ih =>
      cases h : keywordHit a with
      | true =>
          rw [firstKeywordLink, if_pos h, List.find?_cons, h]
          rfl
      | false =>
          rw [firstKeywordLink, if_neg (by simp [h]), List.find?_cons, h]
          exact ih

/-- C9: link selection is the tiered heuristic over the item's internal
(site-relative) links, first success winning: the first link matching the
speech-URL pattern; else the first link whose text or title contains
`'nytårstale'`; else the first internal link; and no link at all when the
item has no internal link. -/
theorem C9_tiered_link_choice (item : AccordionItem) :
    (item.links.filter (fun a => strStarts a.href "/") = [] →
        choose_best_link item = none) ∧
    (∀ a, (item.links.filter (fun a => strStarts a.href "/")).find?
            (fun a => speechHrefMatch (pyStrip a.href)) = some a →
        choose_best_link item = some (pyStrip a.href)) ∧
    ((item.links.filter (fun a => strStarts a.href "/")).find?
          (fun a => speechHrefMatch (pyStrip a.href)) = none →
      ∀ a, (item.links.filter (fun a => strStarts a.href "/")).find? keywordHit
            = some a →
        choose_best_link item = some (pyStrip a.href)) ∧
    ((item.links.filter (fun a => strStarts a.href "/")).find?
          (fun a => speechHrefMatch (pyStrip a.href)) = none →
      (item.links.filter (fun a => strStarts a.href "/")).find? keywordHit = none →
      ∀ a rest, item.links.filter (fun a => strStarts a.href "/") = a :: rest →
        choose_best_link item = some (pyStrip a.href)) := by
  refine ⟨?_, ?_, ?_, ?_⟩
  · intro hL
    unfold choose_best_link
    rw [hL]
  · intro a ha
    unfold choose_best_link
    cases hL : item.links.filter (fun a => strStarts a.href "/") with
    | nil => rw [hL] at ha; simp at ha
    | cons l0 ls =>
        rw [hL] at ha
        simp [firstPatternLink_eq_find, ha]
  · intro hnone a ha
    unfold choose_best_link
    cases hL : item.links.filter (fun a => strStarts a.href "/") with
    | nil => rw [hL] at ha; simp at ha
    | cons l0 ls =>
        rw [hL] at hnone ha
        simp [firstPatternLink_eq_find, firstKeywordLink_eq_find, hnone, ha]
  · intro hnone hknone a rest hL
    unfold choose_best_link
    rw [hL] at hnone hknone
    rw [hL]
    simp [firstPatternLink_eq_find, firstKeywordLink_eq_find, hnone, hknone]

/-- C9 witness: on `itemKeyword` the pattern tier fails, the keyword tier
fires on the second internal link, and that link's href is chosen. -/
theorem C9_witness :
    choose_best_link itemKeyword
      = some (pyStrip (Link.mk "/nyheder/tale/" "H.M. Kongens nytårstale 2025" "").href) :=
  (C9_tiered_link_choice itemKeyword).2.2.1 rfl
    (Link.mk "/nyheder/tale/" "H.M. Kongens nytårstale 2025" "") rfl

/-- A string passing the `startswith("/")` test begins with a slash. -/
theorem strStarts_slash (s : String) (h : strStarts s "/" = true) :
    ∃ t, s.data = '/' :: t := by
  have h2 : listStarts ['/'] s.data = true := h
  cases hd : s.data with
  | nil => rw [hd] at h2; simp [listStarts] at h2
  | cons c cs =>
      rw [hd] at h2
      simp only [listStarts, Bool.and_eq_true, beq_iff_eq] at h2
      exact ⟨cs, by rw [← h2.1]⟩

/-- C10: every candidate URL begins with the fixed base origin
`https://www.kongehuset.dk` followed by `/` — no candidate can point at a
foreign origin. -/
theorem C10_base_origin (doc : IndexDoc) (c : Nat × String)
    (h : c ∈ candidatesOf doc) :
    ∃ t, c.2.data = "https://www.kongehuset.dk/".data ++ t := by
  obtain ⟨y, u⟩ := c
  unfold candidatesOf at h
  cases hg : get_first_accordion doc with
  | error e => rw [hg] at h; simp at h
  | ok root =>
      rw [hg] at h
      dsimp only at h
      rw [List.mem_filterMap] at h
      obtain ⟨item, _, hic⟩ := h
      obtain ⟨href, _, hslash, hu⟩ := itemCandidate_shape item y u hic
      obtain ⟨t, ht⟩ := strStarts_slash href hslash
      refine ⟨t, ?_⟩
      rw [hu, String.data_append, ht]
      have hb : "https://www.kongehuset.dk/".data = BASE_URL.data ++ ['/'] := by decide
      rw [hb, List.append_assoc]
      rfl

/-- C10 witness: the 2023 candidate of `docKing` starts with the base
origin. -/
theorem C10_witness :
    (2023, url2023) ∈ candidatesOf docKing ∧
    ∃ t, ((2023, url2023) : Nat × String).2.data
        = "https://www.kongehuset.dk/".data ++ t :=
  ⟨by decide, C10_base_origin docKing (2023, url2023) (by decide)⟩
